import Mathlib

/-!
Verification of the GoFesl theater manager (`theaterManager.go`, the second
UGAM draft in package `theater`, and `fesl/getStats.client.go`).

The embedding is shallow: Go `map[string]string` values and redis hashes are
association lists of strings, handlers are pure functions from their inputs
(the inbound command message, the session flags, the injected results of
database calls) to the updated state plus the list of FESL messages written
to the peer. One redis instance is a flat association list keyed by
(hash name, field) pairs; `RedisState.Set`/`Get` are single-key atomic
operations, matching redis semantics.
-/

namespace GoFesl

/-- Association-list lookup. Models reading a key of a Go `map[string]string`
or a field of a redis hash; `none` means the key is absent. -/
def lookupA {α : Type} [DecidableEq α] : List (α × String) → α → Option String
  | [], _ => none
  | (k', v) :: rest, k => if k = k' then some v else lookupA rest k

/-- Association-list update: replaces the binding of `k` if present, appends
it otherwise. Models Go map assignment and redis `Set` of one field. -/
def setA {α : Type} [DecidableEq α] : List (α × String) → α → String → List (α × String)
  | [], k, v => [(k, v)]
  | (k', v') :: rest, k, v =>
    if k = k' then (k, v) :: rest else (k', v') :: setA rest k v

/-- A flat key/value command or answer packet (`map[string]string`). -/
abbrev KVMap := List (String × String)

/-- Go map read `m[k]`: returns the zero value `""` when the key is absent. -/
def kvGetD (m : KVMap) (k : String) : String := (lookupA m k).getD ""

/-- Optional map read, used to state properties about packets. -/
def kvGet (m : KVMap) (k : String) : Option String := lookupA m k

/-- Go map assignment `m[k] = v`. -/
def kvSet (m : KVMap) (k v : String) : KVMap := setA m k v

/-- One FESL message written to a peer: the message type passed to
`WriteFESL` together with the answer packet. -/
abbrev FMsg := String × KVMap

/-- The shared redis store: a flat map keyed by (hash name, field). A
`RedisState` with name `ns` owns the keys `(ns, _)`. -/
abbrev Store := List ((String × String) × String)

/-- Redis read of one field of one hash. -/
def Store.get (st : Store) (ns k : String) : Option String := lookupA st (ns, k)

/-- Redis read defaulted to `""` (what `RedisState.Get` yields for a missing
field once the error is ignored). -/
def Store.getD (st : Store) (ns k : String) : String := (Store.get st ns k).getD ""

/-- Redis `Set` of one field of one hash (atomic per key). -/
def Store.set (st : Store) (ns k v : String) : Store := setA st (ns, k) v

/-- The character of one decimal digit (`0 ≤ d ≤ 9`). -/
def digitChar (d : Nat) : Char := Char.ofNat (48 + d)

/-- Fuel-bounded decimal digit loop, most significant digit first; fuel
`n + 1` always suffices. Together with `itoa` this models `strconv.Itoa`
on the non-negative values this program feeds it. -/
def toDecAux : Nat → Nat → List Char → List Char
  | 0, _, acc => acc
  | fuel + 1, n, acc =>
    if n < 10 then digitChar (n % 10) :: acc
    else toDecAux fuel (n / 10) (digitChar (n % 10) :: acc)

/-- Decimal rendering of a natural number, modeling `strconv.Itoa`. -/
def itoa (n : Nat) : String := String.mk (toDecAux (n + 1) n [])

/-- Is `c` a decimal digit character. -/
def isDigitC (c : Char) : Bool := decide (48 ≤ c.toNat) && decide (c.toNat ≤ 57)

/-- One step of decimal parsing. -/
def digitStep (n : Nat) (c : Char) : Nat := n * 10 + (c.toNat - 48)

/-- Models `strconv.Atoi` on the strings this program stores in the lobby
counter: all-digit strings parse to their value, anything else yields the
zero value `0` that the ignored-error path of the source leaves behind. -/
def atoi (s : String) : Nat :=
  if !s.data.isEmpty && s.data.all isDigitC then s.data.foldl digitStep 0 else 0

/-- Drop one trailing `'"'` character, if any (the
`value[:len(value)-1]` branch of the source). -/
def dropLastQuote : List Char → List Char
  | [] => []
  | [c] => if c = '"' then [] else [c]
  | c :: c2 :: rest => c :: dropLastQuote (c2 :: rest)

/-- The quote stripping done by `CGAM` and by the second `UGAM` draft: at
most one leading and one trailing double quote are removed. -/
def stripQuotes (s : String) : String :=
  String.mk (dropLastQuote (match s.data with
    | [] => []
    | c :: cs => if c = '"' then cs else c :: cs))

/-- Write every (key, value) pair of a command message into the hash `ns`
of the store, transforming values with `tf` and skipping the keys listed in
`skip`; models the `for index, value := range event.Command.Message` loops. -/
def setEach (ns : String) (tf : String → String) (skip : List String) :
    Store → KVMap → Store
  | st, [] => st
  | st, (k, v) :: rest =>
    if k ∈ skip then setEach ns tf skip st rest
    else setEach ns tf skip (Store.set st ns k (tf v)) rest

/-- The process-global variables of `theaterManager.go` (lines 76-85). -/
structure Globals where
  wantsToJoin : Bool
  canJoin : Bool
  wantsToLeaveQueue : Bool
  localPort : String
  remotePort : String
  localIP : String
  remoteIP : String
  userId : String
  nickname : String
  pid : String
deriving DecidableEq

/-- The zero values the global variables are declared with. -/
def initGlobals : Globals :=
  ⟨false, false, false, "", "", "", "", "", "", ""⟩

/-- Heartbeat ticker interval in seconds (`time.NewTicker(time.Second * 10)`). -/
def heartbeatIntervalSeconds : Nat := 10

/-- Join-poll ticker interval in seconds (`time.NewTicker(time.Second * 1)`). -/
def joinPollIntervalSeconds : Nat := 1

/-- The row returned by the `revive_soldiers` identity lookup in `EGAM`. -/
structure SoldierRow where
  pid : String
  nickname : String
deriving DecidableEq

/-- ECNL handler: leave acknowledgement. -/
def ECNL (isActive : Bool) (msg : KVMap) : List FMsg :=
  if !isActive then []
  else
    [("ECNL", [("TID", kvGetD msg "TID"), ("GID", "5459"),
               ("LID", kvGetD msg "LID")])]

/-- EGAM handler: a client requests to join a game server. `prepareOk` is
whether `db.Prepare` succeeded (an infrastructure failure, independent of
the account id, that returns before the acknowledgement); `row` is the
result of the `revive_soldiers` lookup for the supplied account id, whose
error is ignored by the source (`none` leaves `pid`/`nickname` untouched).
Returns the updated globals and the messages written to the client. -/
def EGAM (isActive : Bool) (prepareOk : Bool) (row : Option SoldierRow)
    (msg : KVMap) (g : Globals) : Globals × List FMsg :=
  if !isActive then (g, [])
  else
    let g1 := { g with
      localPort := kvGetD msg "R-INT-PORT"
      localIP := kvGetD msg "R-INT-IP"
      remotePort := kvGetD msg "PORT"
      remoteIP := kvGetD msg "R-U-externalIp"
      userId := kvGetD msg "R-U-accid" }
    if !prepareOk then (g1, [])
    else
      let g2 := match row with
        | some r => { g1 with pid := r.pid, nickname := r.nickname }
        | none => g1
      let g3 := { g2 with wantsToJoin := true, canJoin := false }
      (g3, [("EGAM", [("TID", kvGetD msg "TID"), ("GID", "5459"),
                      ("LID", "1")])])

/-- GLST handler: only logs. -/
def GLST (isActive : Bool) : List FMsg :=
  if !isActive then [] else []

/-- The hash name of the lobby record for a given lobby id string. -/
def gameServerNs (lid : String) : String := "gameServer-" ++ lid

/-- The hash name holding the shared lobby counter
(`RedisState` named `gameServer-config`). -/
def configNs : String := "gameServer-config"

/-- The lobby id a `CGAM` call assigns when it runs against `st`:
`strconv.Atoi` of the `Lobbies` field of `gameServer-config`, plus one. -/
def assignedLid (st : Store) : Nat := atoi (Store.getD st configNs "Lobbies") + 1

/-- CGAM handler: a game server registers a lobby. `addrOk`/`addrIP` model
the `net.TCPAddr` cast of the observed connection address (on a failed cast
the handler returns before touching the store). The attribute loop strips
quotes; the derived fields `LID`, `IP`, `ACTIVE-PLAYERS`, `QUEUE-LENGTH`
are written after it; the counter write back is the final store write. -/
def CGAM (isActive : Bool) (addrOk : Bool) (addrIP : String) (msg : KVMap)
    (st : Store) : Store × List FMsg :=
  if !isActive then (st, [])
  else if !addrOk then (st, [])
  else
    let gameLid := assignedLid st
    let ns := gameServerNs (itoa gameLid)
    let st1 := setEach ns stripQuotes [] st msg
    let st2 := Store.set st1 ns "LID" (itoa gameLid)
    let st3 := Store.set st2 ns "IP" addrIP
    let st4 := Store.set st3 ns "ACTIVE-PLAYERS" "0"
    let st5 := Store.set st4 ns "QUEUE-LENGTH" "0"
    let answer : KVMap :=
      [("TID", kvGetD msg "TID"), ("MAX-PLAYERS", "16"),
       ("EKEY", "O65zZ2D2A58mNrZw1hmuJw%3d%3d"),
       ("UGID", "7eb6155c-ac70-4567-9fc4-732d56a9334a"),
       ("JOIN", kvGetD msg "JOIN"), ("LID", "1"), ("SECRET", "2587913"),
       ("J", "0"), ("GID", "5459")]
    let st6 := Store.set st5 configNs "Lobbies" (itoa gameLid)
    (st6, [("CGAM", answer)])

/-- The constant answer packet of the GDAT handler: every field except the
echoed TID is hardcoded in the source (lines 320-357); the handler opens the
`gameServer-<LID>` redis hash but never reads it. -/
def gdatPacket (tid : String) : KVMap :=
  [("TYPE", "G"), ("AP", "15"), ("B-U-server_port", "18569"), ("PW", "0"),
   ("B-U-avg_axis_rank", "800.800000"), ("P", "18569"),
   ("V", "1.02.1067.0"), ("B-U-army_balance", "Balanced"),
   ("B-U-avail_slots_royal", "yes"), ("B-U-avail_slots_national", "yes"),
   ("I", "45.77.79.240"), ("B-U-data_center", "iad"), ("HU", "1"),
   ("B-U-army_distribution", "0,0,0,0,0,0,0,0,0,0,0"), ("F", "1"),
   ("B-maxObservers", "0"),
   ("N", "[iad]gs1-test.revive.systems(45.77.79.240%3a18569)"),
   ("NF", "0"), ("B-version", "1.02.1067.0"),
   ("B-U-server_ip", "45.77.79.240"), ("B-U-community_name", "HeroesSV"),
   ("B-U-percent_full", "0"), ("MP", "16"), ("B-U-ranked", "yes"),
   ("B-U-easyzone", "no"), ("JP", "0"), ("QP", "0"),
   ("HN", "gs1-test.revive.systems"), ("GID", "5459"),
   ("B-U-elo_rank", "800.800000"), ("PL", "PC"),
   ("B-U-server_state", "empty"), ("TID", tid), ("B-numObservers", "0"),
   ("J", "O"), ("B-U-map", "no_vehicles"), ("LID", "1"),
   ("B-U-avg_ally_rank", "800.800000")]

/-- GDAT handler: query data about a server. The store is not read and not
written; the reply is `gdatPacket`. -/
def GDAT (isActive : Bool) (msg : KVMap) : List FMsg :=
  if !isActive then [] else [("GDAT", gdatPacket (kvGetD msg "TID"))]

/-- LLST handler: lobby list plus one LDAT record, all constants. -/
def LLST (isActive : Bool) (msg : KVMap) : List FMsg :=
  if !isActive then []
  else
    [("LLST", [("TID", kvGetD msg "TID"), ("NUM-LOBBIES", "1")]),
     ("LDAT", [("TID", "6"), ("FAVORITE-GAMES", "0"),
               ("FAVORITE-PLAYERS", "0"), ("LID", "1"), ("LOCALE", "en_US"),
               ("MAX-GAMES", "10000"), ("NAME", "bfwestPC02"),
               ("NUM-GAMES", "1"), ("PASSING", "0")])]

/-- USER handler: answers with the process-global `nickname` and `userId`
variables, whatever session sent the command. -/
def USER (isActive : Bool) (msg : KVMap) (g : Globals) : List FMsg :=
  if !isActive then []
  else
    [("USER", [("TID", kvGetD msg "TID"), ("NAME", g.nickname),
               ("CID", g.userId)])]

/-- UBRA handler: bare TID echo. -/
def UBRA (isActive : Bool) (msg : KVMap) : List FMsg :=
  if !isActive then [] else [("UBRA", [("TID", kvGetD msg "TID")])]

/-- UGAM handler, first draft (`theaterManager.go` lines 467-485): marks the
session as a server and writes every key of the message, raw (TID included,
quotes kept), into the `gameServer-<LID>` hash. No reply is written. -/
def UGAM (isActive : Bool) (msg : KVMap) (isServer : Bool) (st : Store) :
    Bool × Store :=
  if !isActive then (isServer, st)
  else (true, setEach (gameServerNs (kvGetD msg "LID")) (fun v => v) [] st msg)

/-- CONN handler: connection hello. `timeStr` is the formatted current time. -/
def CONN (isActive : Bool) (msg : KVMap) (timeStr : String) : List FMsg :=
  if !isActive then []
  else
    [("CONN", [("TID", kvGetD msg "TID"), ("TIME", timeStr),
               ("activityTimeoutSecs", "30"),
               ("PROT", kvGetD msg "PROT")])]

/-- EGRS handler: TID echo. -/
def EGRS (isActive : Bool) (msg : KVMap) : List FMsg :=
  if !isActive then [] else [("EGRS", [("TID", kvGetD msg "TID")])]

/-- PENT handler: echoes TID and PID. -/
def PENT (isActive : Bool) (msg : KVMap) : List FMsg :=
  if !isActive then []
  else [("PENT", [("TID", kvGetD msg "TID"), ("PID", kvGetD msg "PID")])]

/-- UPLA handler: echoes TID, PID and P-cid. -/
def UPLA (isActive : Bool) (msg : KVMap) : List FMsg :=
  if !isActive then []
  else
    [("UPLA", [("TID", kvGetD msg "TID"), ("PID", kvGetD msg "PID"),
               ("P-cid", kvGetD msg "P-cid")])]

/-- The EGRQ request-join packet built by the server side of the join-poll
loop (lines 615-656), field by field from the globals. -/
def egrqPacket (g : Globals) : KVMap :=
  [("TID", "6"), ("NAME", g.nickname), ("UID", g.userId), ("PID", g.pid),
   ("TICKET", "2018751182"), ("IP", g.remoteIP), ("PORT", g.remotePort),
   ("INT-IP", g.localIP), ("INT-PORT", g.localPort), ("PTYPE", "P"),
   ("R-cid", g.userId), ("cid", g.userId), ("R-USER", g.nickname),
   ("R-UID", g.userId), ("XUID", g.userId), ("R-XUID", g.userId),
   ("R-U-accid", g.userId), ("R-U-elo", "1"), ("R-U-team", "1"),
   ("R-U-kit", "2"), ("R-U-lvl", "1"), ("R-U-dataCenter", "iad"),
   ("R-U-externalIp", g.remoteIP), ("R-U-internalIp", g.remotePort),
   ("R-U-category", "5"), ("R-U-cid", g.userId),
   ("R-INT-PORT", g.localPort), ("R-INT-IP", g.localIP), ("LID", "1"),
   ("GID", "5459")]

/-- The EGEG enter-game packet built by the client side of the join-poll
loop (lines 590-603). -/
def egegPacket (g : Globals) : KVMap :=
  [("PL", "pc"), ("TICKET", "2018751182"), ("PID", g.pid),
   ("I", "45.77.79.240"), ("P", "18569"), ("HUID", "1"),
   ("EKEY", "O65zZ2D2A58mNrZw1hmuJw%3d%3d"), ("INT-IP", "45.77.79.240"),
   ("INT-PORT", "18569"), ("SECRET", "2587913"),
   ("UGID", "7eb6155c-ac70-4567-9fc4-732d56a9334a"), ("LID", "1"),
   ("GID", "5459")]

/-- One tick of the per-session join-poll goroutine (lines 575-679). On an
inactive session the loop returns without writing. A client-role session
consumes `canJoin` into one EGEG; a server-role session consumes
`wantsToJoin` into one EGRQ (then sets `canJoin`) and consumes
`wantsToLeaveQueue` without writing (the QLVT send is commented out). -/
def joinTick (isActive isServer : Bool) (g : Globals) : Globals × List FMsg :=
  if !isActive then (g, [])
  else if !isServer then
    if g.canJoin then ({ g with canJoin := false }, [("EGEG", egegPacket g)])
    else (g, [])
  else
    let s1 : Globals × List FMsg :=
      if g.wantsToJoin then
        ({ g with wantsToJoin := false, canJoin := true },
         [("EGRQ", egrqPacket g)])
      else (g, [])
    let g2 :=
      if s1.1.wantsToLeaveQueue then { s1.1 with wantsToLeaveQueue := false }
      else s1.1
    (g2, s1.2)

/-- The PING packet of the heartbeat goroutine (constant TID "0"). -/
def pingPacket : KVMap := [("TID", "0")]

/-- The messages the heartbeat goroutine (lines 558-574) writes along a
sequence of 10-second ticks, where `flags` gives the value of the session
`IsActive` flag observed at each tick: while the flag is true each tick
sends one PING; the first false observation returns from the goroutine, so
later ticks send nothing. -/
def heartbeatRun : List Bool → List FMsg
  | [] => []
  | a :: rest => if a then ("PING", pingPacket) :: heartbeatRun rest else []

namespace theater

/-- The exact deadlock error text the second UGAM draft retries on. -/
def deadlockErr : String :=
  "Error 1213: Deadlock found when trying to get lock; try restarting transaction"

/-- Observable outcome of the second UGAM draft: the resulting shared store,
how many times the stats mirror statement was executed, whether
`log.Panicln` was reached, and whether the second-try failure was logged. -/
structure UGAMOut where
  store : Store
  mirrorAttempts : Nat
  panicked : Bool
  secondFailureLogged : Bool

/-- The hash name of the `lib.RedisObject` with prefix "gdata" and the
given game id. -/
def gdataNs (gid : String) : String := "gdata:" ++ gid

/-- UGAM handler, second draft (package `theater`, lines 704-755): writes
every non-TID key, quotes stripped, into the `gdata` object of the GID;
then runs `stmtUpdateGame` (panicking on error) and the stats mirror
statement, retrying exactly once when the first execution fails with the
deadlock error, and only logging a second failure. `updateGameErr` and
`mirrorErr i` inject the results of the database executions. -/
def UGAM (isActive : Bool) (msg : KVMap) (st : Store)
    (updateGameErr : Option String) (mirrorErr : Nat → Option String) :
    UGAMOut :=
  if !isActive then ⟨st, 0, false, false⟩
  else
    let gid := kvGetD msg "GID"
    let st1 := setEach (gdataNs gid) stripQuotes ["TID"] st msg
    if updateGameErr.isSome then ⟨st1, 0, true, false⟩
    else
      match mirrorErr 0 with
      | none => ⟨st1, 1, false, false⟩
      | some e =>
        if e = deadlockErr then
          match mirrorErr 1 with
          | none => ⟨st1, 2, false, false⟩
          | some _ => ⟨st1, 2, false, true⟩
        else ⟨st1, 1, false, false⟩

end theater

namespace fesl

/-- One row scanned from the stats query in `GetStats`. -/
structure StatsRow where
  userID : String
  heroID : String
  statsKey : String
  statsValue : String

/-- The row loop of `GetStats`: appends `stats.<i>.key/.value/.text`
fields for each returned row, counting up from `i`. -/
def addStats : KVMap → Nat → List StatsRow → KVMap
  | pkt, _, [] => pkt
  | pkt, i, r :: rest =>
    addStats
      (kvSet (kvSet (kvSet pkt ("stats." ++ itoa i ++ ".key") r.statsKey)
          ("stats." ++ itoa i ++ ".value") r.statsValue)
        ("stats." ++ itoa i ++ ".text") r.statsValue)
      (i + 1) rest

/-- GetStats handler (`fesl/getStats.client.go`): answers the query with the
stats rows returned by the durable store, encoded as an indexed list plus a
count; `query` is the echoed command query name, `uID` the session redis
identity (used only as a query argument). An inactive session gets
nothing. -/
def GetStats (isActive : Bool) (msg : KVMap) (_uID : String)
    (rows : List StatsRow) (query : String) : List FMsg :=
  if !isActive then []
  else
    let base : KVMap :=
      [("TXN", "GetStats"), ("ownerId", kvGetD msg "owner"),
       ("ownerType", "1")]
    let withStats := addStats base 0 rows
    [(query, kvSet withStats "stats.[]" (itoa rows.length))]

end fesl

/-- Program counter of one in-flight CGAM call, at the granularity of its
shared-store accesses: the counter read (`Get` + `Atoi` + increment), the
block of lobby-record writes, and the counter write back. -/
inductive CgamPC where
  | atRead : CgamPC
  | atRecord : Nat → CgamPC
  | atCounter : Nat → CgamPC
  | finished : Nat → CgamPC
deriving DecidableEq

/-- One server session in the middle of a CGAM call. -/
structure CgamThread where
  msg : KVMap
  addrIP : String
  pc : CgamPC

/-- The record writes of one CGAM call for an already-computed lobby id:
the attribute loop (quotes stripped) followed by the derived fields. -/
def cgamRecordWrites (st : Store) (lid : Nat) (addrIP : String)
    (msg : KVMap) : Store :=
  let ns := gameServerNs (itoa lid)
  let st1 := setEach ns stripQuotes [] st msg
  let st2 := Store.set st1 ns "LID" (itoa lid)
  let st3 := Store.set st2 ns "IP" addrIP
  let st4 := Store.set st3 ns "ACTIVE-PLAYERS" "0"
  Store.set st4 ns "QUEUE-LENGTH" "0"

/-- One atomic step of an in-flight CGAM call against the shared store. -/
def cgamThreadStep (st : Store) (t : CgamThread) : Store × CgamThread :=
  match t.pc with
  | .atRead => (st, { t with pc := .atRecord (assignedLid st) })
  | .atRecord lid =>
    (cgamRecordWrites st lid t.addrIP t.msg, { t with pc := .atCounter lid })
  | .atCounter lid =>
    (Store.set st configNs "Lobbies" (itoa lid), { t with pc := .finished lid })
  | .finished _ => (st, t)

/-- Run a schedule: each entry names the thread that performs its next
store access. Models the interleaving of concurrent `go tM.CGAM(...)`
handler goroutines. -/
def cgamSched (st : Store) (ts : List CgamThread) : List Nat → Store × List CgamThread
  | [] => (st, ts)
  | i :: rest =>
    match ts.get? i with
    | none => cgamSched st ts rest
    | some t =>
      let r := cgamThreadStep st t
      cgamSched r.1 (ts.set i r.2) rest

/-- The lobby id a finished CGAM call assigned, if finished. -/
def threadLid (t : CgamThread) : Option Nat :=
  match t.pc with
  | .finished lid => some lid
  | _ => none

/-- A sequential (non-interleaved) run of CGAM calls: each call completes
before the next starts. Returns the final store and the list of assigned
lobby ids in call order. -/
def cgamRun (st : Store) : List (String × KVMap) → Store × List Nat
  | [] => (st, [])
  | (ip, msg) :: rest =>
    let lid := assignedLid st
    let st' := (CGAM true true ip msg st).1
    let r := cgamRun st' rest
    (r.1, lid :: r.2)

/-- One in-flight draft-1 UGAM call, viewed as its sequence of per-field
atomic redis writes: the lobby hash it writes and its remaining
(key, value) writes, in message iteration order. -/
structure UgamThread where
  ns : String
  pending : KVMap

/-- One atomic step of an in-flight UGAM call against the shared store:
perform its next per-field redis Set, if any remains. -/
def ugamThreadStep (st : Store) (t : UgamThread) : Store × UgamThread :=
  match t.pending with
  | [] => (st, t)
  | (k, v) :: rest => (Store.set st t.ns k v, { t with pending := rest })

/-- Interleave two in-flight UGAM calls: each schedule entry says whether
the first (true) or the second (false) call performs its next store write.
Models two concurrent `go tM.UGAM(...)` handler goroutines, whose only
shared accesses are the per-field atomic redis Sets. -/
def ugamSched2 (st : Store) (tA tB : UgamThread) :
    List Bool → Store × UgamThread × UgamThread
  | [] => (st, (tA, tB))
  | true :: rest =>
    let r := ugamThreadStep st tA
    ugamSched2 r.1 r.2 tB rest
  | false :: rest =>
    let r := ugamThreadStep st tB
    ugamSched2 r.1 tA r.2 rest

/-- The thread of store writes one draft-1 UGAM call performs: every key
of the message, raw, into the gameServer hash named by the message LID
(see `ugamThread_writes_eq_UGAM` for the equivalence with `UGAM`). -/
def ugamThread (msg : KVMap) : UgamThread :=
  ⟨gameServerNs (kvGetD msg "LID"), msg⟩

/-! Helper lemmas about the association maps and decimal strings. -/

theorem lookupA_setA_self {α : Type} [DecidableEq α] (m : List (α × String)) (k : α)
    (v : String) : lookupA (setA m k v) k = some v := by
  induction m with
  | nil => simp [setA, lookupA]
  | cons p rest ih =>
    obtain ⟨k', v'⟩ := p
    by_cases h : k = k'
    · simp [setA, lookupA, h]
    · simp [setA, lookupA, h, Ne.symm h, ih]

theorem lookupA_setA_ne {α : Type} [DecidableEq α] (m : List (α × String)) (k k' : α)
    (v : String) (h : k' ≠ k) : lookupA (setA m k v) k' = lookupA m k' := by
  induction m with
  | nil => simp [setA, lookupA, h]
  | cons p rest ih =>
    obtain ⟨k0, v0⟩ := p
    by_cases h0 : k = k0
    · subst h0; simp [setA, lookupA, h]
    · by_cases h1 : k' = k0
      · simp [setA, lookupA, h0, h1]
      · simp [setA, lookupA, h0, h1, ih]

theorem isDigitC_digitChar (d : Nat) (h : d < 10) : isDigitC (digitChar d) = true := by
  interval_cases d <;> decide

theorem toNat_digitChar (d : Nat) (h : d < 10) : (digitChar d).toNat = 48 + d := by
  interval_cases d <;> decide

theorem toDecAux_append (fuel : Nat) : ∀ (n : Nat) (acc : List Char), n < fuel →
    toDecAux fuel n acc = toDecAux fuel n [] ++ acc := by
  induction fuel with
  | zero => intro n acc h; omega
  | succ fuel ih =>
    intro n acc h
    by_cases h10 : n < 10
    · simp [toDecAux, h10]
    · have hn : 0 < n := by omega
      have hdiv : n / 10 < fuel :=
        lt_of_lt_of_le (Nat.div_lt_self hn (by omega)) (by omega)
      simp only [toDecAux, if_neg h10]
      rw [ih (n / 10) (digitChar (n % 10) :: acc) hdiv,
          ih (n / 10) [digitChar (n % 10)] hdiv]
      simp

theorem toDecAux_all_digits (fuel : Nat) : ∀ (n : Nat) (acc : List Char),
    acc.all isDigitC = true → (toDecAux fuel n acc).all isDigitC = true := by
  induction fuel with
  | zero => intro n acc h; exact h
  | succ fuel ih =>
    intro n acc h
    have hd : isDigitC (digitChar (n % 10)) = true :=
      isDigitC_digitChar _ (Nat.mod_lt _ (by omega))
    by_cases h10 : n < 10
    · simp [toDecAux, h10, List.all_cons, hd, h]
    · simp only [toDecAux, if_neg h10]
      exact ih _ _ (by simp [List.all_cons, hd, h])

theorem toDecAux_ne_nil (fuel : Nat) : ∀ (n : Nat) (acc : List Char), n < fuel →
    toDecAux fuel n acc ≠ [] := by
  induction fuel with
  | zero => intro n acc h; omega
  | succ fuel ih =>
    intro n acc h
    by_cases h10 : n < 10
    · simp [toDecAux, h10]
    · have hn : 0 < n := by omega
      have hdiv : n / 10 < fuel :=
        lt_of_lt_of_le (Nat.div_lt_self hn (by omega)) (by omega)
      simp only [toDecAux, if_neg h10]
      exact ih _ _ hdiv

theorem foldl_digitStep_toDecAux (fuel : Nat) : ∀ n : Nat, n < fuel →
    (toDecAux fuel n []).foldl digitStep 0 = n := by
  induction fuel with
  | zero => intro n h; omega
  | succ fuel ih =>
    intro n h
    by_cases h10 : n < 10
    · have hm : n % 10 = n := Nat.mod_eq_of_lt h10
      simp only [toDecAux, if_pos h10, hm, List.foldl_cons, List.foldl_nil,
        digitStep, toNat_digitChar n h10]
      omega
    · have hn : 0 < n := by omega
      have hdiv : n / 10 < fuel :=
        lt_of_lt_of_le (Nat.div_lt_self hn (by omega)) (by omega)
      simp only [toDecAux, if_neg h10]
      rw [toDecAux_append fuel (n / 10) _ hdiv, List.foldl_append, ih _ hdiv]
      simp [digitStep, toNat_digitChar _ (Nat.mod_lt n (by omega))]
      omega

theorem atoi_itoa (n : Nat) : atoi (itoa n) = n := by
  have hne := toDecAux_ne_nil (n + 1) n [] (Nat.lt_succ_self n)
  have hall := toDecAux_all_digits (n + 1) n [] rfl
  have hfold := foldl_digitStep_toDecAux (n + 1) n (Nat.lt_succ_self n)
  show (if !(toDecAux (n + 1) n []).isEmpty && (toDecAux (n + 1) n []).all isDigitC
        then (toDecAux (n + 1) n []).foldl digitStep 0 else 0) = n
  cases hl : toDecAux (n + 1) n [] with
  | nil => exact absurd hl hne
  | cons c cs =>
    rw [hl] at hall hfold
    simp [List.isEmpty, hall, hfold]

theorem itoa_injective : Function.Injective itoa := by
  intro a b h
  have ha := atoi_itoa a
  rw [h, atoi_itoa b] at ha
  omega

theorem itoa_all_digits (n : Nat) : (itoa n).data.all isDigitC = true :=
  toDecAux_all_digits (n + 1) n [] rfl

theorem data_append (s t : String) : (s ++ t).data = s.data ++ t.data := rfl

theorem string_eq_of_data_eq {s t : String} (h : s.data = t.data) : s = t := by
  cases s; cases t; exact congrArg String.mk h

theorem gameServerNs_itoa_injective :
    Function.Injective (fun l : Nat => gameServerNs (itoa l)) := by
  intro a b h
  have h' : gameServerNs (itoa a) = gameServerNs (itoa b) := h
  apply itoa_injective
  apply string_eq_of_data_eq
  have hd : (gameServerNs (itoa a)).data = (gameServerNs (itoa b)).data := by rw [h']
  rw [gameServerNs, gameServerNs, data_append, data_append] at hd
  exact List.append_cancel_left hd

theorem gameServerNs_itoa_ne_configNs (n : Nat) : gameServerNs (itoa n) ≠ configNs := by
  intro h
  have hd : (gameServerNs (itoa n)).data = configNs.data := by rw [h]
  rw [gameServerNs, data_append] at hd
  have hc : configNs.data = "gameServer-".data ++ "config".data := by decide
  rw [hc] at hd
  have h2 : (itoa n).data = "config".data := List.append_cancel_left hd
  have h3 := itoa_all_digits n
  rw [h2] at h3
  exact absurd h3 (by decide)

theorem pair_ne_of_fst_ne {α β : Type} {a c : α} {b d : β} (h : a ≠ c) :
    (a, b) ≠ (c, d) := fun he => h (congrArg Prod.fst he)

theorem pair_ne_of_snd_ne {α β : Type} {a c : α} {b d : β} (h : b ≠ d) :
    (a, b) ≠ (c, d) := fun he => h (congrArg Prod.snd he)

/-! Lemmas about the attribute-write loops. -/

theorem get_setEach_ne_ns (ns : String) (tf : String → String) (skip : List String)
    (msg : KVMap) : ∀ (st : Store) (ns' k : String), ns' ≠ ns →
    Store.get (setEach ns tf skip st msg) ns' k = Store.get st ns' k := by
  induction msg with
  | nil => intro st ns' k _; rfl
  | cons p rest ih =>
    obtain ⟨k0, v0⟩ := p
    intro st ns' k h
    by_cases hsk : k0 ∈ skip
    · simp only [setEach, if_pos hsk]; exact ih st ns' k h
    · simp only [setEach, if_neg hsk]
      rw [ih _ ns' k h]
      exact lookupA_setA_ne _ _ _ _ (pair_ne_of_fst_ne h)

theorem get_setEach_notMem (ns : String) (tf : String → String) (skip : List String)
    (msg : KVMap) : ∀ (st : Store) (ns' k : String), k ∉ msg.map Prod.fst →
    Store.get (setEach ns tf skip st msg) ns' k = Store.get st ns' k := by
  induction msg with
  | nil => intro st ns' k _; rfl
  | cons p rest ih =>
    obtain ⟨k0, v0⟩ := p
    intro st ns' k h
    simp only [List.map_cons, List.mem_cons, not_or] at h
    by_cases hsk : k0 ∈ skip
    · simp only [setEach, if_pos hsk]; exact ih st ns' k h.2
    · simp only [setEach, if_neg hsk]
      rw [ih _ ns' k h.2]
      exact lookupA_setA_ne _ _ _ _ (pair_ne_of_snd_ne h.1)

theorem get_setEach_mem (ns : String) (tf : String → String) (skip : List String)
    (msg : KVMap) : ∀ (st : Store) (k v : String), (msg.map Prod.fst).Nodup →
    (k, v) ∈ msg → k ∉ skip →
    Store.get (setEach ns tf skip st msg) ns k = some (tf v) := by
  induction msg with
  | nil => intro st k v _ hmem _; cases hmem
  | cons p rest ih =>
    obtain ⟨k0, v0⟩ := p
    intro st k v hnd hmem hks
    simp only [List.map_cons, List.nodup_cons] at hnd
    rcases List.mem_cons.mp hmem with heq | hrest
    · obtain ⟨hk, hv⟩ := Prod.mk.injEq .. ▸ heq
      subst hk; subst hv
      simp only [setEach, if_neg hks]
      rw [get_setEach_notMem ns tf skip rest _ ns k hnd.1]
      exact lookupA_setA_self _ _ _
    · by_cases hsk : k0 ∈ skip
      · simp only [setEach, if_pos hsk]; exact ih st k v hnd.2 hrest hks
      · simp only [setEach, if_neg hsk]; exact ih _ k v hnd.2 hrest hks

theorem Store.get_set_self (st : Store) (ns k v : String) :
    Store.get (Store.set st ns k v) ns k = some v := lookupA_setA_self st (ns, k) v

theorem Store.get_set_ne (st : Store) (ns k v ns' k' : String)
    (h : (ns', k') ≠ (ns, k)) :
    Store.get (Store.set st ns k v) ns' k' = Store.get st ns' k' :=
  lookupA_setA_ne st (ns, k) (ns', k') v h

/-! Lemmas about CGAM and the shared lobby counter. -/

theorem counter_after_CGAM (ip : String) (msg : KVMap) (st : Store) :
    Store.get (CGAM true true ip msg st).1 configNs "Lobbies"
      = some (itoa (assignedLid st)) := by
  simp only [CGAM, Bool.not_true, Bool.false_eq_true, if_false]
  exact Store.get_set_self _ _ _ _

theorem assignedLid_CGAM (ip : String) (msg : KVMap) (st : Store) :
    assignedLid (CGAM true true ip msg st).1 = assignedLid st + 1 := by
  show atoi (Store.getD (CGAM true true ip msg st).1 configNs "Lobbies") + 1
      = assignedLid st + 1
  rw [Store.getD, counter_after_CGAM]
  simp [atoi_itoa]

theorem cgamRun_ids (reqs : List (String × KVMap)) : ∀ st : Store,
    (cgamRun st reqs).2 = List.range' (assignedLid st) reqs.length := by
  induction reqs with
  | nil => intro st; rfl
  | cons p rest ih =>
    obtain ⟨ip, msg⟩ := p
    intro st
    simp only [cgamRun, List.length_cons, List.range'_succ]
    rw [ih, assignedLid_CGAM]

/-- The write loops of the two UGAM drafts agree at every key other than
TID whose values carry no surrounding quotes: processed over the same
message, the first draft writes values raw into its hash while the second
skips TID and strips quotes. -/
theorem setEach_drafts_agree (k ns1 ns2 : String) (hk : k ≠ "TID") :
    ∀ (msg : KVMap) (st1 st2 : Store),
    (∀ p ∈ msg, p.1 = k → stripQuotes p.2 = p.2) →
    Store.get st1 ns1 k = Store.get st2 ns2 k →
    Store.get (setEach ns1 (fun v => v) [] st1 msg) ns1 k
      = Store.get (setEach ns2 stripQuotes ["TID"] st2 msg) ns2 k := by
  intro msg
  induction msg with
  | nil => intro st1 st2 _ he; exact he
  | cons p rest ih =>
    obtain ⟨k0, v0⟩ := p
    intro st1 st2 hq he
    have hq' : ∀ p ∈ rest, p.1 = k → stripQuotes p.2 = p.2 :=
      fun p hp => hq p (List.mem_cons_of_mem _ hp)
    simp only [setEach]
    rw [if_neg (List.not_mem_nil k0)]
    by_cases h0 : k0 = "TID"
    · rw [if_pos (by simp [h0])]
      apply ih _ _ hq'
      rw [h0, Store.get_set_ne _ _ _ _ _ _ (pair_ne_of_snd_ne hk)]
      exact he
    · rw [if_neg (by simp [h0])]
      apply ih _ _ hq'
      by_cases hkk : k0 = k
      · subst hkk
        rw [Store.get_set_self, Store.get_set_self,
          hq (k0, v0) (List.mem_cons_self _ _) rfl]
      · rw [Store.get_set_ne _ _ _ _ _ _ (pair_ne_of_snd_ne (Ne.symm hkk)),
          Store.get_set_ne _ _ _ _ _ _ (pair_ne_of_snd_ne (Ne.symm hkk))]
        exact he

/-- Running the write thread of one UGAM call alone, to completion, is
exactly the attribute loop of the handler. -/
theorem ugamSched2_alone (ns : String) : ∀ (msg : KVMap) (st : Store)
    (tB : UgamThread),
    (ugamSched2 st ⟨ns, msg⟩ tB (List.replicate msg.length true)).1
      = setEach ns (fun v => v) [] st msg := by
  intro msg
  induction msg with
  | nil => intro st tB; rfl
  | cons p rest ih =>
    obtain ⟨k, v⟩ := p
    intro st tB
    simp only [List.length_cons, List.replicate_succ, ugamSched2,
      ugamThreadStep]
    rw [ih]
    simp only [setEach]
    rw [if_neg (List.not_mem_nil k)]

/-- The interleaving model is faithful: a schedule in which one UGAM
thread performs all its writes produces exactly the store the UGAM handler
produces on that message. -/
theorem ugamThread_writes_eq_UGAM (msg : KVMap) (isS : Bool) (st : Store)
    (tB : UgamThread) :
    (ugamSched2 st (ugamThread msg) tB (List.replicate msg.length true)).1
      = (UGAM true msg isS st).2 := by
  show (ugamSched2 st ⟨gameServerNs (kvGetD msg "LID"), msg⟩ tB
      (List.replicate msg.length true)).1 = (UGAM true msg isS st).2
  rw [ugamSched2_alone]
  rfl

/-- Swapping the two threads and flipping the schedule gives the same
final store with the two final thread states exchanged. -/
theorem ugamSched2_swap : ∀ (sched : List Bool) (st : Store)
    (tA tB : UgamThread),
    ugamSched2 st tB tA (sched.map (fun b => !b))
      = ((ugamSched2 st tA tB sched).1,
         ((ugamSched2 st tA tB sched).2.2, (ugamSched2 st tA tB sched).2.1)) := by
  intro sched
  induction sched with
  | nil => intro st tA tB; rfl
  | cons b rest ih =>
    intro st tA tB
    cases b <;>
      simp only [List.map_cons, Bool.not_true, Bool.not_false, ugamSched2] <;>
      rw [ih]

/-- Invariant of the two-thread interleaving, for one field (ns, k): if
the first call still has the write of k (with value v) pending among its
Nodup keys, or the field already holds v, and the second call never writes
that field of that hash, then after any schedule that completes the first
call the field holds v. The per-field atomicity of the redis Sets is what
makes this hold for every interleaving. -/
theorem ugamSched2_key (ns k v : String) :
    ∀ (sched : List Bool) (st : Store) (nsA : String) (pA : KVMap)
      (nsB : String) (pB : KVMap),
    nsA = ns →
    (((k, v) ∈ pA ∧ (pA.map Prod.fst).Nodup) ∨
      (Store.get st ns k = some v ∧ k ∉ pA.map Prod.fst)) →
    (nsB ≠ ns ∨ k ∉ pB.map Prod.fst) →
    (ugamSched2 st ⟨nsA, pA⟩ ⟨nsB, pB⟩ sched).2.1.pending = [] →
    Store.get (ugamSched2 st ⟨nsA, pA⟩ ⟨nsB, pB⟩ sched).1 ns k = some v := by
  intro sched
  induction sched with
  | nil =>
    intro st nsA pA nsB pB _ hinv _ hdone
    simp only [ugamSched2] at hdone ⊢
    rcases hinv with ⟨hmem, _⟩ | ⟨hst, _⟩
    · rw [hdone] at hmem
      exact absurd hmem (List.not_mem_nil _)
    · exact hst
  | cons b rest ih =>
    intro st nsA pA nsB pB hns hinv hB hdone
    cases b with
    | true =>
      cases pA with
      | nil =>
        simp only [ugamSched2, ugamThreadStep] at hdone ⊢
        exact ih st nsA [] nsB pB hns hinv hB hdone
      | cons hd tl =>
        obtain ⟨k0, v0⟩ := hd
        simp only [ugamSched2, ugamThreadStep] at hdone ⊢
        subst hns
        refine ih _ nsA tl nsB pB rfl ?_ hB hdone
        rcases hinv with ⟨hmem, hnd⟩ | ⟨hst, hnot⟩
        · simp only [List.map_cons, List.nodup_cons] at hnd
          by_cases hk0 : k0 = k
          · subst hk0
            have hv : v0 = v := by
              rcases List.mem_cons.mp hmem with he | hm
              · exact (congrArg Prod.snd he).symm
              · exact absurd (List.mem_map_of_mem Prod.fst hm) hnd.1
            right
            refine ⟨?_, hnd.1⟩
            rw [hv]
            exact Store.get_set_self _ _ _ _
          · left
            refine ⟨?_, hnd.2⟩
            rcases List.mem_cons.mp hmem with he | hm
            · exact absurd (congrArg Prod.fst he).symm hk0
            · exact hm
        · right
          simp only [List.map_cons, List.mem_cons, not_or] at hnot
          refine ⟨?_, hnot.2⟩
          rw [Store.get_set_ne _ _ _ _ _ _ (pair_ne_of_snd_ne hnot.1)]
          exact hst
    | false =>
      cases pB with
      | nil =>
        simp only [ugamSched2, ugamThreadStep] at hdone ⊢
        exact ih st nsA pA nsB [] hns hinv hB hdone
      | cons hd tl =>
        obtain ⟨k0, v0⟩ := hd
        simp only [ugamSched2, ugamThreadStep] at hdone ⊢
        refine ih _ nsA pA nsB tl hns ?_ ?_ hdone
        · rcases hinv with hcase1 | ⟨hst, hnot⟩
          · exact Or.inl hcase1
          · right
            refine ⟨?_, hnot⟩
            rcases hB with hbns | hbk
            · rw [Store.get_set_ne _ _ _ _ _ _ (pair_ne_of_fst_ne (Ne.symm hbns))]
              exact hst
            · simp only [List.map_cons, List.mem_cons, not_or] at hbk
              rw [Store.get_set_ne _ _ _ _ _ _ (pair_ne_of_snd_ne hbk.1)]
              exact hst
        · rcases hB with hbns | hbk
          · exact Or.inl hbns
          · simp only [List.map_cons, List.mem_cons, not_or] at hbk
            exact Or.inr hbk.2

/-! Claim theorems. -/

/-- C1 (counterexample): the lobby-id counter of CGAM is read, incremented
and written back non-atomically, so two concurrent CGAM calls from distinct
server sessions can interleave so that both are assigned lobby id 1, and
the record of the already-assigned lobby id 1 (written by the first call,
with NAME "A" and the first server address) is overwritten by the second
call. The schedule lets both threads read the counter before either writes
its record. -/
theorem CGAM_concurrent_duplicate_ids :
    ((cgamSched [(("gameServer-config", "Lobbies"), "0")]
        [⟨[("NAME", "A")], "1.1.1.1", .atRead⟩,
         ⟨[("NAME", "B")], "2.2.2.2", .atRead⟩]
        [0, 1, 0, 0, 1, 1]).2.map threadLid = [some 1, some 1]) ∧
    Store.get (cgamSched [(("gameServer-config", "Lobbies"), "0")]
        [⟨[("NAME", "A")], "1.1.1.1", .atRead⟩,
         ⟨[("NAME", "B")], "2.2.2.2", .atRead⟩]
        [0, 1, 0, 0]).1 (gameServerNs (itoa 1)) "NAME" = some "A" ∧
    Store.get (cgamSched [(("gameServer-config", "Lobbies"), "0")]
        [⟨[("NAME", "A")], "1.1.1.1", .atRead⟩,
         ⟨[("NAME", "B")], "2.2.2.2", .atRead⟩]
        [0, 1, 0, 0, 1, 1]).1 (gameServerNs (itoa 1)) "NAME" = some "B" := by
  decide

/-- C1 (amended): when CGAM calls do not interleave (each call completes
its read-increment-write of the shared counter before the next starts), the
assigned lobby ids are consecutive from the counter value plus one, hence
strictly increasing and pairwise distinct, and the lobby-record hash names
the calls write are pairwise distinct, so no call overwrites the record of
an already-assigned lobby id. -/
theorem CGAM_sequential_ids_unique_increasing (st : Store)
    (reqs : List (String × KVMap)) :
    (cgamRun st reqs).2 = List.range' (assignedLid st) reqs.length ∧
    List.Pairwise (· < ·) (cgamRun st reqs).2 ∧
    (cgamRun st reqs).2.Nodup ∧
    ((cgamRun st reqs).2.map (fun l => gameServerNs (itoa l))).Nodup := by
  have h := cgamRun_ids reqs st
  refine ⟨h, ?_, ?_, ?_⟩
  · rw [h]; exact List.pairwise_lt_range' _ _
  · rw [h]; exact List.nodup_range' _ _
  · rw [h]; exact (List.nodup_range' _ _).map gameServerNs_itoa_injective

/-- C7: the lobby record stored by CGAM has its IP field set to the
observed remote address of the server connection, after (hence overriding)
any client-supplied "IP" attribute of the command message, and its
ACTIVE-PLAYERS and QUEUE-LENGTH fields initialized to "0". -/
theorem CGAM_ip_and_counters (msg : KVMap) (st : Store) (ip : String) :
    Store.get (CGAM true true ip msg st).1
        (gameServerNs (itoa (assignedLid st))) "IP" = some ip ∧
    Store.get (CGAM true true ip msg st).1
        (gameServerNs (itoa (assignedLid st))) "ACTIVE-PLAYERS" = some "0" ∧
    Store.get (CGAM true true ip msg st).1
        (gameServerNs (itoa (assignedLid st))) "QUEUE-LENGTH" = some "0" := by
  simp only [CGAM, Bool.not_true, Bool.false_eq_true, if_false]
  have hcfg : ∀ k : String,
      (gameServerNs (itoa (assignedLid st)), k) ≠ (configNs, "Lobbies") :=
    fun k => pair_ne_of_fst_ne (gameServerNs_itoa_ne_configNs _)
  have hIPQL : (("IP" : String) ≠ "QUEUE-LENGTH") := by decide
  have hIPAP : (("IP" : String) ≠ "ACTIVE-PLAYERS") := by decide
  have hAPQL : (("ACTIVE-PLAYERS" : String) ≠ "QUEUE-LENGTH") := by decide
  refine ⟨?_, ?_, ?_⟩
  · rw [Store.get_set_ne _ _ _ _ _ _ (hcfg "IP"),
      Store.get_set_ne _ _ _ _ _ _ (pair_ne_of_snd_ne hIPQL),
      Store.get_set_ne _ _ _ _ _ _ (pair_ne_of_snd_ne hIPAP)]
    exact Store.get_set_self _ _ _ _
  · rw [Store.get_set_ne _ _ _ _ _ _ (hcfg "ACTIVE-PLAYERS"),
      Store.get_set_ne _ _ _ _ _ _ (pair_ne_of_snd_ne hAPQL)]
    exact Store.get_set_self _ _ _ _
  · rw [Store.get_set_ne _ _ _ _ _ _ (hcfg "QUEUE-LENGTH")]
    exact Store.get_set_self _ _ _ _

/-- C2: a join request (EGAM) on an active client session followed by the
next join-poll tick of the active server session produces exactly one EGRQ
message, carrying the resolved identity (NAME from the looked-up nickname,
UID from the request account id, PID from the looked-up player id) and the
ticket id; a further tick with no new join request in between produces no
message at all. -/
theorem EGAM_poll_exactly_one_EGRQ (g : Globals) (msg : KVMap) (r : SoldierRow) :
    (joinTick true true (EGAM true true (some r) msg g).1).2
      = [("EGRQ", egrqPacket (EGAM true true (some r) msg g).1)] ∧
    kvGet (egrqPacket (EGAM true true (some r) msg g).1) "NAME" = some r.nickname ∧
    kvGet (egrqPacket (EGAM true true (some r) msg g).1) "UID"
      = some (kvGetD msg "R-U-accid") ∧
    kvGet (egrqPacket (EGAM true true (some r) msg g).1) "PID" = some r.pid ∧
    kvGet (egrqPacket (EGAM true true (some r) msg g).1) "TICKET"
      = some "2018751182" ∧
    (joinTick true true (joinTick true true (EGAM true true (some r) msg g).1).1).2
      = [] := by
  refine ⟨rfl, rfl, rfl, rfl, rfl, ?_⟩
  cases hw : g.wantsToLeaveQueue <;>
    simp [EGAM, joinTick, hw]

/-- C4: EGAM on an active session acknowledges the request with the normal
response (echoing the request TID) whether the `revive_soldiers` lookup for
the supplied account id returns a row or fails; the lookup error is
ignored. -/
theorem EGAM_ack_regardless_of_lookup (row : Option SoldierRow) (msg : KVMap)
    (g : Globals) :
    (EGAM true true row msg g).2
      = [("EGAM", [("TID", kvGetD msg "TID"), ("GID", "5459"), ("LID", "1")])] := by
  cases row <;> rfl

/-- C5: every command handler checks the session active flag first and is a
complete no-op on an inactive session: no message is written and the
globals, the shared store, the session role flag and the durable-store
statements are untouched. This covers every TCP command handler of the
theater manager, both UGAM drafts, and GetStats. -/
theorem inactive_handlers_noop :
    ∀ (msg : KVMap) (g : Globals) (st : Store) (isServer prepareOk addrOk : Bool)
      (row : Option SoldierRow) (ip timeStr uID query : String)
      (rows : List fesl.StatsRow) (updErr : Option String)
      (mirrorErr : Nat → Option String),
    ECNL false msg = [] ∧
    EGAM false prepareOk row msg g = (g, []) ∧
    GLST false = [] ∧
    CGAM false addrOk ip msg st = (st, []) ∧
    GDAT false msg = [] ∧
    LLST false msg = [] ∧
    USER false msg g = [] ∧
    UBRA false msg = [] ∧
    UGAM false msg isServer st = (isServer, st) ∧
    CONN false msg timeStr = [] ∧
    EGRS false msg = [] ∧
    PENT false msg = [] ∧
    UPLA false msg = [] ∧
    (theater.UGAM false msg st updErr mirrorErr).store = st ∧
    (theater.UGAM false msg st updErr mirrorErr).mirrorAttempts = 0 ∧
    (theater.UGAM false msg st updErr mirrorErr).panicked = false ∧
    fesl.GetStats false msg uID rows query = [] := by
  intros
  exact ⟨rfl, rfl, rfl, rfl, rfl, rfl, rfl, rfl, rfl, rfl, rfl, rfl, rfl, rfl,
    rfl, rfl, rfl⟩

/-- C8: along any sequence of heartbeat ticks during which the session
active flag stays true, every tick sends exactly one PING with the constant
transaction id "0" (the tick interval being 10 seconds); as soon as a tick
observes the flag false the goroutine returns, and nothing whatsoever is
sent at that tick or any later one. -/
theorem heartbeat_ping_while_active (flags pre post : List Bool)
    (h : ∀ a ∈ flags, a = true) :
    heartbeatRun flags = List.replicate flags.length ("PING", pingPacket) ∧
    heartbeatRun (pre ++ false :: post) = heartbeatRun (pre ++ [false]) ∧
    heartbeatIntervalSeconds = 10 := by
  have part1 : ∀ fl : List Bool, (∀ a ∈ fl, a = true) →
      heartbeatRun fl = List.replicate fl.length ("PING", pingPacket) := by
    intro fl
    induction fl with
    | nil => intro _; rfl
    | cons a rest ih =>
      intro hh
      have ha := hh a (List.mem_cons_self a rest)
      rw [List.length_cons, List.replicate_succ]
      simp [heartbeatRun, ha,
        ih (fun b hb => hh b (List.mem_cons_of_mem a hb))]
  have part2 : ∀ p q : List Bool,
      heartbeatRun (p ++ false :: q) = heartbeatRun (p ++ [false]) := by
    intro p q
    induction p with
    | nil => rfl
    | cons a rest ih => cases a <;> simp [heartbeatRun, ih]
  exact ⟨part1 flags h, part2 pre post, rfl⟩

/-- C8 (witness): three active ticks yield three PINGs; once a tick sees
the inactive flag, later ticks add nothing. -/
theorem heartbeat_ping_while_active_witness :
    heartbeatRun [true, true, true]
      = List.replicate 3 ("PING", pingPacket) ∧
    heartbeatRun ([true] ++ false :: [true, true])
      = heartbeatRun ([true] ++ [false]) ∧
    heartbeatIntervalSeconds = 10 :=
  heartbeat_ping_while_active [true, true, true] [true] [true, true]
    (by decide)

/-- C10: the USER response takes its NAME and CID fields from the
process-global `nickname` and `userId` variables: before any join request
both are the declared empty strings, and after one or two EGAM join
requests (from whatever session) USER answers any session with the
identity set by the most recent EGAM. -/
theorem USER_reads_global_identity (g : Globals)
    (msgU msgU2 msgU3 msgE msgE2 : KVMap) (r r2 : SoldierRow) :
    USER true msgU initGlobals
      = [("USER", [("TID", kvGetD msgU "TID"), ("NAME", ""), ("CID", "")])] ∧
    USER true msgU2 (EGAM true true (some r) msgE g).1
      = [("USER", [("TID", kvGetD msgU2 "TID"), ("NAME", r.nickname),
                   ("CID", kvGetD msgE "R-U-accid")])] ∧
    USER true msgU3
        (EGAM true true (some r2) msgE2 (EGAM true true (some r) msgE g).1).1
      = [("USER", [("TID", kvGetD msgU3 "TID"), ("NAME", r2.nickname),
                   ("CID", kvGetD msgE2 "R-U-accid")])] :=
  ⟨rfl, rfl, rfl⟩

/-- C3 (counterexample): after UGAM stores attribute N = "MyServer" for
lobby id 7, the GDAT response for the same lobby id does not reflect it:
the response is the constant packet, whose N field is the hardcoded server
name, because GDAT never reads the store. -/
theorem UGAM_GDAT_response_static :
    Store.get (UGAM true [("TID", "1"), ("LID", "7"), ("N", "MyServer")] false []).2
        (gameServerNs "7") "N" = some "MyServer" ∧
    GDAT true [("TID", "2"), ("LID", "7")] = [("GDAT", gdatPacket "2")] ∧
    kvGet (gdatPacket "2") "N"
      = some "[iad]gs1-test.revive.systems(45.77.79.240%3a18569)" ∧
    kvGet (gdatPacket "2") "N" ≠ some "MyServer" := by
  decide

/-- C3 (amended): UGAM followed by reading the lobby record in the shared
store reflects every key of the supplied attribute map (last-writer-wins
per key), even under concurrent updates: for every interleaving of the
per-field atomic redis writes of two concurrent UGAM calls to the same
lobby, once both calls have completed, every key written by exactly one of
the two calls (hence every key, when the key sets are disjoint) reads back
with its value — no lost updates. The GDAT response itself, however, is a
constant packet (see the counterexample). -/
theorem UGAM_store_reflects_attrs (msg msgA msgB : KVMap) (st st2 : Store)
    (isS : Bool) (l l2 : String) (sched : List Bool)
    (hnd : (msg.map Prod.fst).Nodup)
    (hA : (msgA.map Prod.fst).Nodup) (hB : (msgB.map Prod.fst).Nodup)
    (hl : kvGetD msg "LID" = l)
    (hlA : kvGetD msgA "LID" = l2) (hlB : kvGetD msgB "LID" = l2)
    (hdoneA : (ugamSched2 st2 (ugamThread msgA) (ugamThread msgB)
        sched).2.1.pending = [])
    (hdoneB : (ugamSched2 st2 (ugamThread msgA) (ugamThread msgB)
        sched).2.2.pending = []) :
    (∀ k v, (k, v) ∈ msg →
      Store.get (UGAM true msg isS st).2 (gameServerNs l) k = some v) ∧
    (∀ k v, (k, v) ∈ msgA → k ∉ msgB.map Prod.fst →
      Store.get (ugamSched2 st2 (ugamThread msgA) (ugamThread msgB) sched).1
        (gameServerNs l2) k = some v) ∧
    (∀ k v, (k, v) ∈ msgB → k ∉ msgA.map Prod.fst →
      Store.get (ugamSched2 st2 (ugamThread msgA) (ugamThread msgB) sched).1
        (gameServerNs l2) k = some v) := by
  refine ⟨?_, ?_, ?_⟩
  · intro k v hm
    simp only [UGAM, Bool.not_true, Bool.false_eq_true, if_false, hl]
    exact get_setEach_mem _ _ _ msg st k v hnd hm (List.not_mem_nil k)
  · intro k v hm hnot
    exact ugamSched2_key (gameServerNs l2) k v sched st2
      (gameServerNs (kvGetD msgA "LID")) msgA
      (gameServerNs (kvGetD msgB "LID")) msgB
      (by rw [hlA]) (Or.inl ⟨hm, hA⟩) (Or.inr hnot) hdoneA
  · intro k v hm hnot
    have hswap := ugamSched2_swap sched st2 (ugamThread msgA) (ugamThread msgB)
    have hdone' : (ugamSched2 st2 (ugamThread msgB) (ugamThread msgA)
        (sched.map (fun b => !b))).2.1.pending = [] := by
      rw [hswap]; exact hdoneB
    have hkey := ugamSched2_key (gameServerNs l2) k v
      (sched.map (fun b => !b)) st2
      (gameServerNs (kvGetD msgB "LID")) msgB
      (gameServerNs (kvGetD msgA "LID")) msgA
      (by rw [hlB]) (Or.inl ⟨hm, hB⟩) (Or.inr hnot) hdone'
    have hkey2 : Store.get (ugamSched2 st2 (ugamThread msgB) (ugamThread msgA)
        (sched.map (fun b => !b))).1 (gameServerNs l2) k = some v := hkey
    rw [hswap] at hkey2
    exact hkey2

/-- C3 (witness): two concurrent updates to lobby "1" with distinct extra
keys, their per-field writes genuinely interleaved (A, B, A, B); both
extra keys read back, as does a single update. -/
theorem UGAM_store_reflects_attrs_witness :
    Store.get (UGAM true [("LID", "1"), ("A", "x")] false []).2
        (gameServerNs "1") "A" = some "x" ∧
    Store.get (ugamSched2 [] (ugamThread [("LID", "1"), ("A", "x")])
        (ugamThread [("LID", "1"), ("B", "y")]) [true, false, true, false]).1
        (gameServerNs "1") "A" = some "x" ∧
    Store.get (ugamSched2 [] (ugamThread [("LID", "1"), ("A", "x")])
        (ugamThread [("LID", "1"), ("B", "y")]) [true, false, true, false]).1
        (gameServerNs "1") "B" = some "y" := by
  have h := UGAM_store_reflects_attrs [("LID", "1"), ("A", "x")]
    [("LID", "1"), ("A", "x")] [("LID", "1"), ("B", "y")] [] [] false "1" "1"
    [true, false, true, false]
    (by decide) (by decide) (by decide) (by decide) (by decide) (by decide)
    (by decide) (by decide)
  exact ⟨h.1 "A" "x" (by decide), h.2.1 "A" "x" (by decide) (by decide),
    h.2.2 "B" "y" (by decide) (by decide)⟩

/-- C6: when the stats-mirror write of the second UGAM draft fails with the
deadlock error, it is executed exactly once more (two executions in total);
a failure of the retry is logged only, the handler neither panics nor
undoes anything, and the shared-store copy of the record still holds every
updated attribute (quotes stripped, TID skipped). -/
theorem UGAM_mirror_retry_once (msg : KVMap) (st : Store) (e2 : String)
    (mirrorErr : Nat → Option String)
    (hnd : (msg.map Prod.fst).Nodup)
    (h0 : mirrorErr 0 = some theater.deadlockErr)
    (h1 : mirrorErr 1 = some e2) :
    (theater.UGAM true msg st none mirrorErr).mirrorAttempts = 2 ∧
    (theater.UGAM true msg st none mirrorErr).panicked = false ∧
    (theater.UGAM true msg st none mirrorErr).secondFailureLogged = true ∧
    (∀ k v, k ≠ "TID" → (k, v) ∈ msg →
      Store.get (theater.UGAM true msg st none mirrorErr).store
        (theater.gdataNs (kvGetD msg "GID")) k = some (stripQuotes v)) := by
  have hout : theater.UGAM true msg st none mirrorErr
      = ⟨setEach (theater.gdataNs (kvGetD msg "GID")) stripQuotes ["TID"] st msg,
         2, false, true⟩ := by
    simp [theater.UGAM, h0, h1]
  rw [hout]
  refine ⟨rfl, rfl, rfl, ?_⟩
  intro k v hk hm
  exact get_setEach_mem _ _ _ msg st k v hnd hm (by simp [hk])

/-- C6 (witness): a concrete update whose mirror write deadlocks and whose
retry fails with another error. -/
theorem UGAM_mirror_retry_once_witness :
    (theater.UGAM true [("TID", "9"), ("GID", "7"), ("B-U-map", "\"dam\"")] []
        none (fun i => if i = 0 then some theater.deadlockErr else some "boom")).mirrorAttempts
      = 2 ∧
    (theater.UGAM true [("TID", "9"), ("GID", "7"), ("B-U-map", "\"dam\"")] []
        none (fun i => if i = 0 then some theater.deadlockErr else some "boom")).panicked
      = false ∧
    (theater.UGAM true [("TID", "9"), ("GID", "7"), ("B-U-map", "\"dam\"")] []
        none (fun i => if i = 0 then some theater.deadlockErr else some "boom")).secondFailureLogged
      = true ∧
    Store.get (theater.UGAM true [("TID", "9"), ("GID", "7"), ("B-U-map", "\"dam\"")] []
        none (fun i => if i = 0 then some theater.deadlockErr else some "boom")).store
        (theater.gdataNs "7") "B-U-map" = some "dam" := by
  have h := UGAM_mirror_retry_once
    [("TID", "9"), ("GID", "7"), ("B-U-map", "\"dam\"")] [] "boom"
    (fun i => if i = 0 then some theater.deadlockErr else some "boom")
    (by decide) rfl rfl
  exact ⟨h.1, h.2.1, h.2.2.1, h.2.2.2 "B-U-map" "\"dam\"" (by decide) (by decide)⟩

/-- C9 (counterexample): the two UGAM drafts do not write the same set of
key-value pairs to the lobby record: the first draft writes the TID key and
keeps surrounding quotes, the second skips TID and strips quotes. -/
theorem UGAM_drafts_differ :
    Store.get (UGAM true
        [("TID", "1"), ("GID", "5459"), ("LID", "1"), ("N", "\"x\"")] false []).2
        (gameServerNs "1") "TID" = some "1" ∧
    Store.get (theater.UGAM true
        [("TID", "1"), ("GID", "5459"), ("LID", "1"), ("N", "\"x\"")]
        [] none (fun _ => none)).store (theater.gdataNs "5459") "TID" = none ∧
    Store.get (UGAM true
        [("TID", "1"), ("GID", "5459"), ("LID", "1"), ("N", "\"x\"")] false []).2
        (gameServerNs "1") "N" = some "\"x\"" ∧
    Store.get (theater.UGAM true
        [("TID", "1"), ("GID", "5459"), ("LID", "1"), ("N", "\"x\"")]
        [] none (fun _ => none)).store (theater.gdataNs "5459") "N" = some "x" := by
  decide

/-- C9 (amended): restricted to keys other than TID whose message values
carry no surrounding double quote, the two UGAM drafts write the same value
to their lobby record (the first draft keyed by LID, the second by GID);
they differ exactly in the TID key, in quote stripping, and in the hash the
record lives under. -/
theorem UGAM_drafts_agree_nonTID_unquoted (msg : KVMap) (isS : Bool) (k : String)
    (hk : k ≠ "TID") (hq : ∀ p ∈ msg, p.1 = k → stripQuotes p.2 = p.2) :
    Store.get (UGAM true msg isS []).2 (gameServerNs (kvGetD msg "LID")) k
      = Store.get (theater.UGAM true msg [] none (fun _ => none)).store
          (theater.gdataNs (kvGetD msg "GID")) k := by
  show Store.get (setEach (gameServerNs (kvGetD msg "LID")) (fun v => v) [] [] msg)
      (gameServerNs (kvGetD msg "LID")) k
    = Store.get (setEach (theater.gdataNs (kvGetD msg "GID")) stripQuotes ["TID"] [] msg)
      (theater.gdataNs (kvGetD msg "GID")) k
  exact setEach_drafts_agree k _ _ hk msg [] [] hq rfl

/-- C9 (witness): on a message with an unquoted server name, both drafts
store the same N value. -/
theorem UGAM_drafts_agree_witness :
    Store.get (UGAM true
        [("TID", "3"), ("GID", "5459"), ("LID", "1"), ("N", "srv")] true []).2
        (gameServerNs "1") "N"
      = Store.get (theater.UGAM true
          [("TID", "3"), ("GID", "5459"), ("LID", "1"), ("N", "srv")]
          [] none (fun _ => none)).store (theater.gdataNs "5459") "N" :=
  UGAM_drafts_agree_nonTID_unquoted
    [("TID", "3"), ("GID", "5459"), ("LID", "1"), ("N", "srv")] true "N"
    (by decide) (by decide)

end GoFesl
